import Mathlib

/-!
Verification of the Aniblock animated-diagram library.

This file gives a shallow embedding, in Lean, of the parts of Aniblock that
the specification talks about:

* the block geometry engine (`src/ts/Block.ts`): a block's center coordinates
  and size, the `move_by_*`, `change_width` and `change_height` mutations and
  the `get_edge` accessor;
* the link attachment protocol (`Link.ts`): a link's derived geometry and its
  `plug`, `unplug` and `update` operations;
* the position expression evaluator (`src/ts/Position.ts`) together with the
  guide/constant registries of the scene (`Scene.ts`);
* the timeline scheduling discipline shared by all animation calls.

Numbers are modelled as rationals (the TypeScript code only ever divides by
2 and by 100, so JavaScript doubles behave exactly like `ℚ` on every value
the claims mention).  Thrown exceptions are modelled with `Except`, and the
JavaScript `undefined`/`NaN` values that can flow out of the evaluator are
modelled explicitly by the `JSVal` type.  Purely visual effects (SVG nodes,
strokes, text layout) are outside the model; each definition embeds the
state mutation performed by the source function of the same name.
-/

namespace Aniblock

/-- Growth directions for `change_width` / `change_height`, from the `Dir`
enum in `Block.ts`. -/
inductive Dir
  | Up
  | Down
  | Center
  | Left
  | Right
deriving DecidableEq, Repr

/-- Block edge names, from the `Edge` enum in `Block.ts`. -/
inductive Edge
  | Top
  | Bottom
  | Left
  | Right
deriving DecidableEq, Repr

/-- The mutable geometric state of a `Block` (`Block.ts`): center coordinates
`x`/`y`, size `w`/`h`, the `xStart`/`yStart`/`wStart`/`hStart` fields used as
the tween reference origin, and the visibility flag. -/
@[ext]
structure Blk where
  x : ℚ
  y : ℚ
  w : ℚ
  h : ℚ
  xStart : ℚ
  yStart : ℚ
  wStart : ℚ
  hStart : ℚ
  isVisible : Bool
deriving DecidableEq, Repr

/-- The `Block` constructor: `wStart`/`hStart`/`w`/`h` are the given size,
`xStart`/`yStart`/`x`/`y` the given (already `Position`-resolved) center, and
blocks start hidden. -/
def mkBlk (x y w h : ℚ) : Blk :=
  ⟨x, y, w, h, x, y, w, h, false⟩

/-- `Block.get_edge`: edge coordinates measured from the center and size. -/
def Blk.get_edge (b : Blk) (edge : Edge) : ℚ :=
  match edge with
  | Edge.Top => b.y - b.h / 2
  | Edge.Right => b.x + b.w / 2
  | Edge.Bottom => b.y + b.h / 2
  | Edge.Left => b.x - b.w / 2

/-- The state effect of `Block.move_by_x`: `this.x += offset`.  (The tween it
schedules is modelled by `move_t` below; links owned by the block are updated
by the `World` model below.) -/
def Blk.move_by_x (b : Blk) (offset : ℚ) : Blk :=
  { b with x := b.x + offset }

/-- The state effect of `Block.move_by_y`: `this.y += offset`. -/
def Blk.move_by_y (b : Blk) (offset : ℚ) : Blk :=
  { b with y := b.y + offset }

/-- The state effect of `Block.show`: sets `isVisible = true`. -/
def Blk.show_blk (b : Blk) : Blk :=
  { b with isVisible := true }

/-- The state effect of `Block.hide`: sets `isVisible = false`. -/
def Blk.hide_blk (b : Blk) : Blk :=
  { b with isVisible := false }

/-- The state effect of `Block.change_width`: records the new width, shifts
the origin and center right by `deltaW / 2`, then compensates with a
`move_by_x` whose offset depends on the grow direction, exactly as in
`Block.ts` lines 581-620. -/
def Blk.change_width (b : Blk) (w : ℚ) (direction : Dir) : Blk :=
  let deltaW := w - b.w
  let deltaW2 := deltaW / 2
  let b1 := { b with w := w, xStart := b.xStart + deltaW2, x := b.x + deltaW2 }
  if (0 < deltaW ∧ direction = Dir.Left) ∨ (deltaW < 0 ∧ direction = Dir.Right) then
    b1.move_by_x (-deltaW)
  else if direction = Dir.Center then
    b1.move_by_x (-deltaW2)
  else
    b1

/-- The state effect of `Block.change_height`, the vertical analogue of
`change_width` (`Block.ts` lines 633-672). -/
def Blk.change_height (b : Blk) (h : ℚ) (direction : Dir) : Blk :=
  let deltaH := h - b.h
  let deltaH2 := deltaH / 2
  let b1 := { b with h := h, yStart := b.yStart + deltaH2, y := b.y + deltaH2 }
  if (0 < deltaH ∧ direction = Dir.Up) ∨ (deltaH < 0 ∧ direction = Dir.Down) then
    b1.move_by_y (-deltaH)
  else if direction = Dir.Center then
    b1.move_by_y (-deltaH2)
  else
    b1

/-- A concrete block of width 100 centered at x = 200, the configuration the
specification uses for its anchoring examples. -/
def blk100 : Blk := mkBlk 200 0 100 50

lemma get_edge_left (b : Blk) : b.get_edge Edge.Left = b.x - b.w / 2 := rfl

lemma get_edge_right (b : Blk) : b.get_edge Edge.Right = b.x + b.w / 2 := rfl

lemma get_edge_top (b : Blk) : b.get_edge Edge.Top = b.y - b.h / 2 := rfl

lemma get_edge_bottom (b : Blk) : b.get_edge Edge.Bottom = b.y + b.h / 2 := rfl

/-- Evaluation of every field of `change_width`: only `w`, `x` and `xStart`
change, and the new center is determined by the sign of the delta and the
direction. -/
lemma change_width_fields (b : Blk) (w : ℚ) (dir : Dir) :
    (b.change_width w dir).w = w ∧ (b.change_width w dir).h = b.h ∧
    (b.change_width w dir).y = b.y ∧ (b.change_width w dir).yStart = b.yStart ∧
    (b.change_width w dir).wStart = b.wStart ∧
    (b.change_width w dir).hStart = b.hStart ∧
    (b.change_width w dir).isVisible = b.isVisible ∧
    (b.change_width w dir).xStart = b.xStart + (w - b.w) / 2 ∧
    (b.change_width w dir).x =
      (if (0 < w - b.w ∧ dir = Dir.Left) ∨ (w - b.w < 0 ∧ dir = Dir.Right) then
        b.x - (w - b.w) / 2
      else if dir = Dir.Center then b.x
      else b.x + (w - b.w) / 2) := by
  simp only [Blk.change_width, Blk.move_by_x]
  split_ifs <;> refine ⟨?_, ?_, ?_, ?_, ?_, ?_, ?_, ?_, ?_⟩ <;>
    first
      | rfl
      | ring

/-- Evaluation of every field of `change_height`. -/
lemma change_height_fields (b : Blk) (h : ℚ) (dir : Dir) :
    (b.change_height h dir).h = h ∧ (b.change_height h dir).w = b.w ∧
    (b.change_height h dir).x = b.x ∧ (b.change_height h dir).xStart = b.xStart ∧
    (b.change_height h dir).wStart = b.wStart ∧
    (b.change_height h dir).hStart = b.hStart ∧
    (b.change_height h dir).isVisible = b.isVisible ∧
    (b.change_height h dir).yStart = b.yStart + (h - b.h) / 2 ∧
    (b.change_height h dir).y =
      (if (0 < h - b.h ∧ dir = Dir.Up) ∨ (h - b.h < 0 ∧ dir = Dir.Down) then
        b.y - (h - b.h) / 2
      else if dir = Dir.Center then b.y
      else b.y + (h - b.h) / 2) := by
  simp only [Blk.change_height, Blk.move_by_y]
  split_ifs <;> refine ⟨?_, ?_, ?_, ?_, ?_, ?_, ?_, ?_, ?_⟩ <;>
    first
      | rfl
      | ring

/-- C1.  `change_width(w, dir)` anchors according to the direction: growing
with `Dir.Right` keeps the left edge fixed, growing with `Dir.Left` keeps the
right edge fixed, and `Dir.Center` keeps the center unchanged whether growing
or shrinking; `change_height` is the vertical analogue (growing `Dir.Up`
keeps the bottom edge, growing `Dir.Down` keeps the top edge, `Dir.Center`
keeps the center).  Concretely, for a block of width 100 centered at x = 200,
`change_width 160 Right` puts left/right/center at 150/310/230,
`change_width 160 Left` puts right/center at 250/170, and
`change_width 160 Center` keeps the center at 200. -/
theorem change_width_anchoring :
    (∀ (b : Blk) (w : ℚ), b.w ≤ w →
      (b.change_width w Dir.Right).get_edge Edge.Left = b.get_edge Edge.Left) ∧
    (∀ (b : Blk) (w : ℚ), b.w ≤ w →
      (b.change_width w Dir.Left).get_edge Edge.Right = b.get_edge Edge.Right) ∧
    (∀ (b : Blk) (w : ℚ), (b.change_width w Dir.Center).x = b.x) ∧
    (∀ (b : Blk) (h : ℚ), b.h ≤ h →
      (b.change_height h Dir.Up).get_edge Edge.Bottom = b.get_edge Edge.Bottom) ∧
    (∀ (b : Blk) (h : ℚ), b.h ≤ h →
      (b.change_height h Dir.Down).get_edge Edge.Top = b.get_edge Edge.Top) ∧
    (∀ (b : Blk) (h : ℚ), (b.change_height h Dir.Center).y = b.y) ∧
    ((blk100.change_width 160 Dir.Right).get_edge Edge.Left = 150 ∧
      (blk100.change_width 160 Dir.Right).get_edge Edge.Right = 310 ∧
      (blk100.change_width 160 Dir.Right).x = 230) ∧
    ((blk100.change_width 160 Dir.Left).get_edge Edge.Right = 250 ∧
      (blk100.change_width 160 Dir.Left).x = 170) ∧
    (blk100.change_width 160 Dir.Center).x = 200 := by
  refine ⟨?_, ?_, ?_, ?_, ?_, ?_, ?_, ?_, ?_⟩
  · intro b w hw
    obtain ⟨hw', -, -, -, -, -, -, -, hx⟩ := change_width_fields b w Dir.Right
    simp at hx
    rw [get_edge_left, get_edge_left, hw', hx, if_neg (by linarith)]
    ring
  · intro b w hw
    obtain ⟨hw', -, -, -, -, -, -, -, hx⟩ := change_width_fields b w Dir.Left
    simp at hx
    rw [get_edge_right, get_edge_right, hw', hx]
    rcases lt_or_eq_of_le hw with h | h
    · rw [if_pos (by linarith)]; ring
    · rw [if_neg (by rw [← h]; simp), ← h]; ring
  · intro b w
    obtain ⟨-, -, -, -, -, -, -, -, hx⟩ := change_width_fields b w Dir.Center
    simpa using hx
  · intro b h hh
    obtain ⟨hh', -, -, -, -, -, -, -, hy⟩ := change_height_fields b h Dir.Up
    simp at hy
    rw [get_edge_bottom, get_edge_bottom, hh', hy]
    rcases lt_or_eq_of_le hh with h2 | h2
    · rw [if_pos (by linarith)]; ring
    · rw [if_neg (by rw [← h2]; simp), ← h2]; ring
  · intro b h hh
    obtain ⟨hh', -, -, -, -, -, -, -, hy⟩ := change_height_fields b h Dir.Down
    simp at hy
    rw [get_edge_top, get_edge_top, hh', hy, if_neg (by linarith)]
    ring
  · intro b h
    obtain ⟨-, -, -, -, -, -, -, -, hy⟩ := change_height_fields b h Dir.Center
    simpa using hy
  · simp [blk100, mkBlk, Blk.change_width, Blk.move_by_x, Blk.get_edge] <;> norm_num
  · simp [blk100, mkBlk, Blk.change_width, Blk.move_by_x, Blk.get_edge] <;> norm_num
  · simp [blk100, mkBlk, Blk.change_width, Blk.move_by_x, Blk.get_edge] <;> norm_num

/-- Witness for `change_width_anchoring`: the growth hypothesis holds for the
block of width 100 widened to 160. -/
theorem change_width_anchoring_witness :
    blk100.w ≤ 160 ∧
      (blk100.change_width 160 Dir.Right).get_edge Edge.Left =
        blk100.get_edge Edge.Left :=
  ⟨by norm_num [blk100, mkBlk],
    change_width_anchoring.1 blk100 160 (by norm_num [blk100, mkBlk])⟩

/-! ## Links (`Link.ts`) -/

/-- The state of a `Link`: the inherited block geometry plus the exit edge
fixed at construction.  (The `src` and `dst` relationships are modelled by
passing the current endpoint geometry to the operations, matching how the
source dereferences `this.src` / `this.dst` at call time; the `World`
structure below couples a block with the links registered on it.) -/
@[ext]
structure LinkSt where
  blk : Blk
  exit : Edge
deriving DecidableEq, Repr

/-- The `Link` constructor: along the exit axis the link spans from the
source's exit edge to the destination's opposing edge (plugged) or collapses
onto the source's exit edge (unplugged); along the cross axis it is the given
thickness `dim` centered on the source's cross coordinate. -/
def mkLink (src dst : Blk) (exit : Edge) (dim : ℚ) (plugged : Bool) : LinkSt :=
  let tblr : ℚ × ℚ × ℚ × ℚ :=
    match exit with
    | Edge.Top =>
      let bottom := src.get_edge Edge.Top
      let top := if plugged then dst.get_edge Edge.Bottom else bottom
      (top, bottom, 0, 0)
    | Edge.Right =>
      let left := src.get_edge Edge.Right
      let right := if plugged then dst.get_edge Edge.Left else left
      (0, 0, left, right)
    | Edge.Bottom =>
      let top := src.get_edge Edge.Bottom
      let bottom := if plugged then dst.get_edge Edge.Top else top
      (top, bottom, 0, 0)
    | Edge.Left =>
      let right := src.get_edge Edge.Left
      let left := if plugged then dst.get_edge Edge.Right else right
      (0, 0, left, right)
  let (top, bottom, left, right) := tblr
  let (top, bottom, left, right) :=
    if exit = Edge.Top ∨ exit = Edge.Bottom then
      let left := src.x - dim / 2
      (top, bottom, left, left + dim)
    else
      let top := src.y - dim / 2
      (top, top + dim, left, right)
  let w := right - left
  let h := bottom - top
  ⟨mkBlk (left + w / 2) (top + h / 2) w h, exit⟩

/-- `Link.update`: re-derives the exit-axis size from the *source's* current
exit edge versus the link's current near edge, picks the resize direction
from the sign of the change so the far edge stays anchored, then re-centers
on the source along the cross axis. -/
def LinkSt.update (l : LinkSt) (src : Blk) : LinkSt :=
  match l.exit with
  | Edge.Top =>
    let srcE := src.get_edge Edge.Top
    let cur := l.blk.get_edge Edge.Bottom
    let newH := l.blk.h - (cur - srcE)
    let b1 :=
      if newH < l.blk.h then l.blk.change_height newH Dir.Up
      else l.blk.change_height newH Dir.Down
    ⟨b1.move_by_x (src.x - b1.x), Edge.Top⟩
  | Edge.Right =>
    let srcE := src.get_edge Edge.Right
    let cur := l.blk.get_edge Edge.Left
    let newW := l.blk.w - (srcE - cur)
    let b1 :=
      if newW < l.blk.w then l.blk.change_width newW Dir.Right
      else l.blk.change_width newW Dir.Left
    ⟨b1.move_by_y (src.y - b1.y), Edge.Right⟩
  | Edge.Bottom =>
    let srcE := src.get_edge Edge.Bottom
    let cur := l.blk.get_edge Edge.Top
    let newH := l.blk.h - (srcE - cur)
    let b1 :=
      if newH < l.blk.h then l.blk.change_height newH Dir.Down
      else l.blk.change_height newH Dir.Up
    ⟨b1.move_by_x (src.x - b1.x), Edge.Bottom⟩
  | Edge.Left =>
    let srcE := src.get_edge Edge.Left
    let cur := l.blk.get_edge Edge.Right
    let newW := l.blk.w - (cur - srcE)
    let b1 :=
      if newW < l.blk.w then l.blk.change_width newW Dir.Left
      else l.blk.change_width newW Dir.Right
    ⟨b1.move_by_y (src.y - b1.y), Edge.Left⟩

/-- `Link.unplug`: collapse the exit-axis extent to zero, anchored away from
the direction of travel. -/
def LinkSt.unplug (l : LinkSt) : LinkSt :=
  match l.exit with
  | Edge.Top => ⟨l.blk.change_height 0 Dir.Down, l.exit⟩
  | Edge.Right => ⟨l.blk.change_width 0 Dir.Left, l.exit⟩
  | Edge.Bottom => ⟨l.blk.change_height 0 Dir.Up, l.exit⟩
  | Edge.Left => ⟨l.blk.change_width 0 Dir.Right, l.exit⟩

/-- `Link.plug`: set the exit-axis extent to the distance from the source's
exit edge to the destination's opposing edge, growing in the exit
direction. -/
def LinkSt.plug (l : LinkSt) (src dst : Blk) : LinkSt :=
  match l.exit with
  | Edge.Top =>
    ⟨l.blk.change_height (src.get_edge Edge.Top - dst.get_edge Edge.Bottom) Dir.Up, l.exit⟩
  | Edge.Right =>
    ⟨l.blk.change_width (dst.get_edge Edge.Left - src.get_edge Edge.Right) Dir.Right, l.exit⟩
  | Edge.Bottom =>
    ⟨l.blk.change_height (dst.get_edge Edge.Top - src.get_edge Edge.Bottom) Dir.Down, l.exit⟩
  | Edge.Left =>
    ⟨l.blk.change_width (src.get_edge Edge.Left - dst.get_edge Edge.Right) Dir.Left, l.exit⟩

/-- The edge of a link that touches its source: the edge opposite the exit
direction. -/
def oppEdge : Edge → Edge
  | Edge.Top => Edge.Bottom
  | Edge.Bottom => Edge.Top
  | Edge.Left => Edge.Right
  | Edge.Right => Edge.Left

/-- The source-adjacent ("near") edge coordinate of a link. -/
def LinkSt.nearEdge (l : LinkSt) : ℚ := l.blk.get_edge (oppEdge l.exit)

/-- The destination-facing ("far") edge coordinate of a link. -/
def LinkSt.farEdge (l : LinkSt) : ℚ := l.blk.get_edge l.exit

/-! ## C2: plug geometry -/

/-- Source block for the plug scenario: bottom edge at y = 140. -/
def srcC2 : Blk := mkBlk 0 120 40 40

/-- Destination block originally below at top edge y = 300. -/
def dstC2far : Blk := mkBlk 0 320 40 40

/-- The same destination after moving up by 80: top edge at y = 220. -/
def dstC2 : Blk := dstC2far.move_by_y (-80)

/-- A link constructed plugged while the destination's top edge was at 300,
so it currently spans [140, 300]. -/
def linkC2 : LinkSt := mkLink srcC2 dstC2far Edge.Bottom 10 true

/-- An unplugged link constructed in the 140/220 scenario, spanning
[140, 140]. -/
def linkC2u : LinkSt := mkLink srcC2 dstC2 Edge.Bottom 10 false

/-- Counterexample to C2 as stated: with the source's bottom edge at 140 and
the destination's top edge at 220, a Link with exit = Bottom that currently
spans [140, 300] (it was plugged while the destination was lower, and the
destination then moved) ends up spanning [220, 300] after `plug()` — neither
edge of the claimed span [140, 220] is realized, and the source-adjacent
edge moves instead of staying fixed. -/
theorem plug_span_cex :
    srcC2.get_edge Edge.Bottom = 140 ∧ dstC2.get_edge Edge.Top = 220 ∧
      linkC2.exit = Edge.Bottom ∧
      (linkC2.plug srcC2 dstC2).blk.get_edge Edge.Top = 220 ∧
      (linkC2.plug srcC2 dstC2).blk.get_edge Edge.Bottom = 300 ∧
      (linkC2.plug srcC2 dstC2).blk.get_edge Edge.Top ≠ 140 ∧
      (linkC2.plug srcC2 dstC2).blk.get_edge Edge.Bottom ≠ 220 := by
  refine ⟨by norm_num [srcC2, mkBlk, Blk.get_edge],
    by norm_num [dstC2, dstC2far, mkBlk, Blk.move_by_y, Blk.get_edge], rfl, ?_, ?_, ?_, ?_⟩ <;>
    simp [linkC2, srcC2, dstC2, dstC2far, mkLink, mkBlk, LinkSt.plug, Blk.change_height,
      Blk.move_by_y, Blk.get_edge] <;> norm_num

/-- C2 (amended).  `plug()` sets the Link's extent along the exit axis to
span from the source's exit edge to the destination's opposing edge with the
source-adjacent edge fixed, *provided* the Link's source-adjacent edge
currently coincides with the source's exit edge and the new span is at least
the current extent (the growth case; `plug` anchors at the current near edge,
so a link whose geometry is stale, e.g. after the destination moved, is not
re-based).  Concretely, an unplugged link (extent 0 at y = 140) with
exit = Bottom, source bottom edge 140 and destination top edge 220 spans
exactly [140, 220] after `plug()`. -/
theorem plug_span_aligned :
    (∀ b src dst : Blk, b.get_edge Edge.Top = src.get_edge Edge.Bottom →
      b.h ≤ dst.get_edge Edge.Top - src.get_edge Edge.Bottom →
      ((LinkSt.mk b Edge.Bottom).plug src dst).blk.get_edge Edge.Top =
          src.get_edge Edge.Bottom ∧
        ((LinkSt.mk b Edge.Bottom).plug src dst).blk.get_edge Edge.Bottom =
          dst.get_edge Edge.Top) ∧
    (∀ b src dst : Blk, b.get_edge Edge.Bottom = src.get_edge Edge.Top →
      b.h ≤ src.get_edge Edge.Top - dst.get_edge Edge.Bottom →
      ((LinkSt.mk b Edge.Top).plug src dst).blk.get_edge Edge.Bottom =
          src.get_edge Edge.Top ∧
        ((LinkSt.mk b Edge.Top).plug src dst).blk.get_edge Edge.Top =
          dst.get_edge Edge.Bottom) ∧
    (∀ b src dst : Blk, b.get_edge Edge.Left = src.get_edge Edge.Right →
      b.w ≤ dst.get_edge Edge.Left - src.get_edge Edge.Right →
      ((LinkSt.mk b Edge.Right).plug src dst).blk.get_edge Edge.Left =
          src.get_edge Edge.Right ∧
        ((LinkSt.mk b Edge.Right).plug src dst).blk.get_edge Edge.Right =
          dst.get_edge Edge.Left) ∧
    (∀ b src dst : Blk, b.get_edge Edge.Right = src.get_edge Edge.Left →
      b.w ≤ src.get_edge Edge.Left - dst.get_edge Edge.Right →
      ((LinkSt.mk b Edge.Left).plug src dst).blk.get_edge Edge.Right =
          src.get_edge Edge.Left ∧
        ((LinkSt.mk b Edge.Left).plug src dst).blk.get_edge Edge.Left =
          dst.get_edge Edge.Right) ∧
    ((linkC2u.plug srcC2 dstC2).blk.get_edge Edge.Top = 140 ∧
      (linkC2u.plug srcC2 dstC2).blk.get_edge Edge.Bottom = 220) := by
  refine ⟨?_, ?_, ?_, ?_, ?_⟩
  · intro b src dst hne hgrow
    have hplug : (LinkSt.mk b Edge.Bottom).plug src dst =
        ⟨b.change_height (dst.get_edge Edge.Top - src.get_edge Edge.Bottom) Dir.Down,
          Edge.Bottom⟩ := rfl
    rw [hplug]
    obtain ⟨hh', -, -, -, -, -, -, -, hy⟩ :=
      change_height_fields b (dst.get_edge Edge.Top - src.get_edge Edge.Bottom) Dir.Down
    simp at hy
    rw [if_neg (by linarith)] at hy
    rw [get_edge_top] at hne
    constructor
    · rw [get_edge_top, hh', hy]; linarith
    · rw [get_edge_bottom, hh', hy]; linarith
  · intro b src dst hne hgrow
    have hplug : (LinkSt.mk b Edge.Top).plug src dst =
        ⟨b.change_height (src.get_edge Edge.Top - dst.get_edge Edge.Bottom) Dir.Up,
          Edge.Top⟩ := rfl
    rw [hplug]
    obtain ⟨hh', -, -, -, -, -, -, -, hy⟩ :=
      change_height_fields b (src.get_edge Edge.Top - dst.get_edge Edge.Bottom) Dir.Up
    simp at hy
    rw [get_edge_bottom] at hne
    rcases lt_or_eq_of_le hgrow with hlt | heq
    · rw [if_pos (by linarith)] at hy
      exact ⟨by rw [get_edge_bottom, hh', hy]; linarith,
        by rw [get_edge_top, hh', hy]; linarith⟩
    · rw [if_neg (by rw [← heq]; simp)] at hy
      exact ⟨by rw [get_edge_bottom, hh', hy]; linarith,
        by rw [get_edge_top, hh', hy]; linarith⟩
  · intro b src dst hne hgrow
    have hplug : (LinkSt.mk b Edge.Right).plug src dst =
        ⟨b.change_width (dst.get_edge Edge.Left - src.get_edge Edge.Right) Dir.Right,
          Edge.Right⟩ := rfl
    rw [hplug]
    obtain ⟨hw', -, -, -, -, -, -, -, hx⟩ :=
      change_width_fields b (dst.get_edge Edge.Left - src.get_edge Edge.Right) Dir.Right
    simp at hx
    rw [if_neg (by linarith)] at hx
    rw [get_edge_left] at hne
    constructor
    · rw [get_edge_left, hw', hx]; linarith
    · rw [get_edge_right, hw', hx]; linarith
  · intro b src dst hne hgrow
    have hplug : (LinkSt.mk b Edge.Left).plug src dst =
        ⟨b.change_width (src.get_edge Edge.Left - dst.get_edge Edge.Right) Dir.Left,
          Edge.Left⟩ := rfl
    rw [hplug]
    obtain ⟨hw', -, -, -, -, -, -, -, hx⟩ :=
      change_width_fields b (src.get_edge Edge.Left - dst.get_edge Edge.Right) Dir.Left
    simp at hx
    rw [get_edge_right] at hne
    rcases lt_or_eq_of_le hgrow with hlt | heq
    · rw [if_pos (by linarith)] at hx
      exact ⟨by rw [get_edge_right, hw', hx]; linarith,
        by rw [get_edge_left, hw', hx]; linarith⟩
    · rw [if_neg (by rw [← heq]; simp)] at hx
      exact ⟨by rw [get_edge_right, hw', hx]; linarith,
        by rw [get_edge_left, hw', hx]; linarith⟩
  · constructor <;>
      simp [linkC2u, srcC2, dstC2, dstC2far, mkLink, mkBlk, LinkSt.plug, Blk.change_height,
        Blk.move_by_y, Blk.get_edge] <;> norm_num

/-- Witness for `plug_span_aligned`: the aligned-growth hypotheses hold for
the freshly constructed unplugged link of the 140/220 scenario. -/
theorem plug_span_aligned_witness :
    linkC2u.blk.get_edge Edge.Top = srcC2.get_edge Edge.Bottom ∧
      linkC2u.blk.h ≤ dstC2.get_edge Edge.Top - srcC2.get_edge Edge.Bottom ∧
      ((LinkSt.mk linkC2u.blk Edge.Bottom).plug srcC2 dstC2).blk.get_edge Edge.Top =
        srcC2.get_edge Edge.Bottom :=
  ⟨by norm_num [linkC2u, srcC2, dstC2, dstC2far, mkLink, mkBlk, Blk.move_by_y, Blk.get_edge],
    by norm_num [linkC2u, srcC2, dstC2, dstC2far, mkLink, mkBlk, Blk.move_by_y, Blk.get_edge],
    (plug_span_aligned.1 linkC2u.blk srcC2 dstC2
      (by norm_num [linkC2u, srcC2, dstC2, dstC2far, mkLink, mkBlk, Blk.move_by_y, Blk.get_edge])
      (by norm_num [linkC2u, srcC2, dstC2, dstC2far, mkLink, mkBlk, Blk.move_by_y,
        Blk.get_edge])).1⟩

/-! ## Worlds: a pair of blocks with their registered links

`Link`'s constructor calls `this.src.add_link(this)` and never registers on
`dst`; `Block.move_by_*` then calls `this.update_links()`, which calls
`update` on each link in the moved block's own list. -/

/-- Two endpoint blocks together with the link lists each of them owns. -/
structure World where
  src : Blk
  dst : Blk
  srcLinks : List LinkSt
  dstLinks : List LinkSt

/-- Construct a link between `src` and `dst`: the new link is registered in
the source's list only (`src.add_link(this)`); the destination is not
notified. -/
def mkLinkWorld (src dst : Blk) (exit : Edge) (dim : ℚ) (plugged : Bool) : World :=
  ⟨src, dst, [mkLink src dst exit dim plugged], []⟩

/-- `src.move_by_y(off)`: the source moves, then `update_links()` updates
every link the source owns against the source's new geometry. -/
def World.moveSrcByY (w : World) (off : ℚ) : World :=
  let src := w.src.move_by_y off
  { w with src := src, srcLinks := w.srcLinks.map (fun l => l.update src) }

/-- `dst.move_by_y(off)`: the destination moves, and only the links the
*destination* owns are updated. -/
def World.moveDstByY (w : World) (off : ℚ) : World :=
  let dst := w.dst.move_by_y off
  { w with dst := dst, dstLinks := w.dstLinks.map (fun l => l.update dst) }

/-- The cross-axis coordinate relevant to an exit direction. -/
def exitCross (exit : Edge) (b : Blk) : ℚ :=
  match exit with
  | Edge.Top | Edge.Bottom => b.x
  | Edge.Left | Edge.Right => b.y

/-- A link is aligned with a source block when its near edge sits on the
source's exit edge and it is centered on the source along the cross axis.
This is the steady-state relationship `update` establishes. -/
def LinkAligned (l : LinkSt) (src : Blk) : Prop :=
  l.nearEdge = src.get_edge l.exit ∧ exitCross l.exit l.blk = exitCross l.exit src

lemma move_by_x_eval (b : Blk) (o : ℚ) :
    b.move_by_x o =
      ⟨b.x + o, b.y, b.w, b.h, b.xStart, b.yStart, b.wStart, b.hStart, b.isVisible⟩ := rfl

lemma move_by_y_eval (b : Blk) (o : ℚ) :
    b.move_by_y o =
      ⟨b.x, b.y + o, b.w, b.h, b.xStart, b.yStart, b.wStart, b.hStart, b.isVisible⟩ := rfl

/-- Resizing to the current height is a no-op in every direction. -/
lemma change_height_self (b : Blk) (dir : Dir) : b.change_height b.h dir = b := by
  obtain ⟨h1, h2, h3, h4, h5, h6, h7, h8, h9⟩ := change_height_fields b b.h dir
  ext
  · exact h3
  · rw [h9]; split_ifs with hc1 hc2
    · rcases hc1 with ⟨hl, -⟩ | ⟨hl, -⟩ <;> linarith
    · ring
    · ring
  · exact h2
  · exact h1
  · exact h4
  · rw [h8]; ring
  · exact h5
  · exact h6
  · exact h7

/-- Resizing to the current width is a no-op in every direction. -/
lemma change_width_self (b : Blk) (dir : Dir) : b.change_width b.w dir = b := by
  obtain ⟨h1, h2, h3, h4, h5, h6, h7, h8, h9⟩ := change_width_fields b b.w dir
  ext
  · rw [h9]; split_ifs with hc1 hc2
    · rcases hc1 with ⟨hl, -⟩ | ⟨hl, -⟩ <;> linarith
    · ring
    · ring
  · exact h3
  · exact h1
  · exact h2
  · rw [h8]; ring
  · exact h4
  · exact h5
  · exact h6
  · exact h7

lemma move_by_x_zero (b : Blk) : b.move_by_x 0 = b := by
  rw [move_by_x_eval]; ext <;> simp

lemma move_by_y_zero (b : Blk) : b.move_by_y 0 = b := by
  rw [move_by_y_eval]; ext <;> simp

/-- The height change `update` issues for exit = Top always keeps the top
(far) edge fixed: both the shrink (`Up`) and grow (`Down`) branches leave the
center at `y + (nh - h) / 2`. -/
lemma ifch_top (b : Blk) (nh : ℚ) :
    (if nh < b.h then b.change_height nh Dir.Up else b.change_height nh Dir.Down) =
      ⟨b.x, b.y + (nh - b.h) / 2, b.w, nh, b.xStart, b.yStart + (nh - b.h) / 2,
        b.wStart, b.hStart, b.isVisible⟩ := by
  split_ifs with hc
  · obtain ⟨h1, h2, h3, h4, h5, h6, h7, h8, h9⟩ := change_height_fields b nh Dir.Up
    simp at h9
    rw [if_neg (by linarith)] at h9
    ext
    · exact h3
    · exact h9
    · exact h2
    · exact h1
    · exact h4
    · exact h8
    · exact h5
    · exact h6
    · exact h7
  · obtain ⟨h1, h2, h3, h4, h5, h6, h7, h8, h9⟩ := change_height_fields b nh Dir.Down
    simp at h9
    rw [if_neg (by linarith)] at h9
    ext
    · exact h3
    · exact h9
    · exact h2
    · exact h1
    · exact h4
    · exact h8
    · exact h5
    · exact h6
    · exact h7

/-- The height change `update` issues for exit = Bottom always keeps the
bottom (far) edge fixed: the center lands at `y - (nh - h) / 2`. -/
lemma ifch_bottom (b : Blk) (nh : ℚ) :
    (if nh < b.h then b.change_height nh Dir.Down else b.change_height nh Dir.Up) =
      ⟨b.x, b.y - (nh - b.h) / 2, b.w, nh, b.xStart, b.yStart + (nh - b.h) / 2,
        b.wStart, b.hStart, b.isVisible⟩ := by
  split_ifs with hc
  · obtain ⟨h1, h2, h3, h4, h5, h6, h7, h8, h9⟩ := change_height_fields b nh Dir.Down
    simp at h9
    rw [if_pos (by linarith)] at h9
    ext
    · exact h3
    · exact h9
    · exact h2
    · exact h1
    · exact h4
    · exact h8
    · exact h5
    · exact h6
    · exact h7
  · obtain ⟨h1, h2, h3, h4, h5, h6, h7, h8, h9⟩ := change_height_fields b nh Dir.Up
    simp at h9
    rcases lt_or_eq_of_le (le_of_not_lt hc) with hlt | heq
    · rw [if_pos (by linarith)] at h9
      ext
      · exact h3
      · exact h9
      · exact h2
      · exact h1
      · exact h4
      · exact h8
      · exact h5
      · exact h6
      · exact h7
    · rw [if_neg (by rw [heq]; simp)] at h9
      ext
      · exact h3
      · rw [h9, heq]; ring
      · exact h2
      · exact h1
      · exact h4
      · exact h8
      · exact h5
      · exact h6
      · exact h7

/-- The width change `update` issues for exit = Right always keeps the right
(far) edge fixed: the center lands at `x - (nw - w) / 2`. -/
lemma ifcw_right (b : Blk) (nw : ℚ) :
    (if nw < b.w then b.change_width nw Dir.Right else b.change_width nw Dir.Left) =
      ⟨b.x - (nw - b.w) / 2, b.y, nw, b.h, b.xStart + (nw - b.w) / 2, b.yStart,
        b.wStart, b.hStart, b.isVisible⟩ := by
  split_ifs with hc
  · obtain ⟨h1, h2, h3, h4, h5, h6, h7, h8, h9⟩ := change_width_fields b nw Dir.Right
    simp at h9
    rw [if_pos (by linarith)] at h9
    ext
    · exact h9
    · exact h3
    · exact h1
    · exact h2
    · exact h8
    · exact h4
    · exact h5
    · exact h6
    · exact h7
  · obtain ⟨h1, h2, h3, h4, h5, h6, h7, h8, h9⟩ := change_width_fields b nw Dir.Left
    simp at h9
    rcases lt_or_eq_of_le (le_of_not_lt hc) with hlt | heq
    · rw [if_pos (by linarith)] at h9
      ext
      · exact h9
      · exact h3
      · exact h1
      · exact h2
      · exact h8
      · exact h4
      · exact h5
      · exact h6
      · exact h7
    · rw [if_neg (by rw [heq]; simp)] at h9
      ext
      · rw [h9, heq]; ring
      · exact h3
      · exact h1
      · exact h2
      · exact h8
      · exact h4
      · exact h5
      · exact h6
      · exact h7

/-- The width change `update` issues for exit = Left always keeps the left
(far) edge fixed: the center lands at `x + (nw - w) / 2`. -/
lemma ifcw_left (b : Blk) (nw : ℚ) :
    (if nw < b.w then b.change_width nw Dir.Left else b.change_width nw Dir.Right) =
      ⟨b.x + (nw - b.w) / 2, b.y, nw, b.h, b.xStart + (nw - b.w) / 2, b.yStart,
        b.wStart, b.hStart, b.isVisible⟩ := by
  split_ifs with hc
  · obtain ⟨h1, h2, h3, h4, h5, h6, h7, h8, h9⟩ := change_width_fields b nw Dir.Left
    simp at h9
    rw [if_neg (by linarith)] at h9
    ext
    · exact h9
    · exact h3
    · exact h1
    · exact h2
    · exact h8
    · exact h4
    · exact h5
    · exact h6
    · exact h7
  · obtain ⟨h1, h2, h3, h4, h5, h6, h7, h8, h9⟩ := change_width_fields b nw Dir.Right
    simp at h9
    rw [if_neg (by linarith)] at h9
    ext
    · exact h9
    · exact h3
    · exact h1
    · exact h2
    · exact h8
    · exact h4
    · exact h5
    · exact h6
    · exact h7

/-- Full evaluation of `update` for exit = Top: the new height is measured
against the source's top edge, the bottom edge is re-anchored there, the top
edge stays, and the link re-centers on `src.x`. -/
lemma update_eval_top (b src : Blk) :
    (LinkSt.mk b Edge.Top).update src =
      ⟨⟨src.x,
        b.y + ((b.h - (b.get_edge Edge.Bottom - src.get_edge Edge.Top)) - b.h) / 2,
        b.w,
        b.h - (b.get_edge Edge.Bottom - src.get_edge Edge.Top),
        b.xStart,
        b.yStart + ((b.h - (b.get_edge Edge.Bottom - src.get_edge Edge.Top)) - b.h) / 2,
        b.wStart, b.hStart, b.isVisible⟩, Edge.Top⟩ := by
  have hu : (LinkSt.mk b Edge.Top).update src =
      ⟨(if b.h - (b.get_edge Edge.Bottom - src.get_edge Edge.Top) < b.h then
          b.change_height (b.h - (b.get_edge Edge.Bottom - src.get_edge Edge.Top)) Dir.Up
        else
          b.change_height (b.h - (b.get_edge Edge.Bottom - src.get_edge Edge.Top))
            Dir.Down).move_by_x
        (src.x -
          (if b.h - (b.get_edge Edge.Bottom - src.get_edge Edge.Top) < b.h then
            b.change_height (b.h - (b.get_edge Edge.Bottom - src.get_edge Edge.Top)) Dir.Up
          else
            b.change_height (b.h - (b.get_edge Edge.Bottom - src.get_edge Edge.Top))
              Dir.Down).x),
        Edge.Top⟩ := rfl
  rw [hu, ifch_top, move_by_x_eval]
  simp

/-- Full evaluation of `update` for exit = Bottom: the top edge is
re-anchored on the source's bottom edge, the bottom edge stays, and the link
re-centers on `src.x`. -/
lemma update_eval_bottom (b src : Blk) :
    (LinkSt.mk b Edge.Bottom).update src =
      ⟨⟨src.x,
        b.y - ((b.h - (src.get_edge Edge.Bottom - b.get_edge Edge.Top)) - b.h) / 2,
        b.w,
        b.h - (src.get_edge Edge.Bottom - b.get_edge Edge.Top),
        b.xStart,
        b.yStart + ((b.h - (src.get_edge Edge.Bottom - b.get_edge Edge.Top)) - b.h) / 2,
        b.wStart, b.hStart, b.isVisible⟩, Edge.Bottom⟩ := by
  have hu : (LinkSt.mk b Edge.Bottom).update src =
      ⟨(if b.h - (src.get_edge Edge.Bottom - b.get_edge Edge.Top) < b.h then
          b.change_height (b.h - (src.get_edge Edge.Bottom - b.get_edge Edge.Top)) Dir.Down
        else
          b.change_height (b.h - (src.get_edge Edge.Bottom - b.get_edge Edge.Top))
            Dir.Up).move_by_x
        (src.x -
          (if b.h - (src.get_edge Edge.Bottom - b.get_edge Edge.Top) < b.h then
            b.change_height (b.h - (src.get_edge Edge.Bottom - b.get_edge Edge.Top)) Dir.Down
          else
            b.change_height (b.h - (src.get_edge Edge.Bottom - b.get_edge Edge.Top))
              Dir.Up).x),
        Edge.Bottom⟩ := rfl
  rw [hu, ifch_bottom, move_by_x_eval]
  simp

/-- Full evaluation of `update` for exit = Right: the left edge is
re-anchored on the source's right edge, the right edge stays, and the link
re-centers on `src.y`. -/
lemma update_eval_right (b src : Blk) :
    (LinkSt.mk b Edge.Right).update src =
      ⟨⟨b.x - ((b.w - (src.get_edge Edge.Right - b.get_edge Edge.Left)) - b.w) / 2,
        src.y,
        b.w - (src.get_edge Edge.Right - b.get_edge Edge.Left),
        b.h,
        b.xStart + ((b.w - (src.get_edge Edge.Right - b.get_edge Edge.Left)) - b.w) / 2,
        b.yStart, b.wStart, b.hStart, b.isVisible⟩, Edge.Right⟩ := by
  have hu : (LinkSt.mk b Edge.Right).update src =
      ⟨(if b.w - (src.get_edge Edge.Right - b.get_edge Edge.Left) < b.w then
          b.change_width (b.w - (src.get_edge Edge.Right - b.get_edge Edge.Left)) Dir.Right
        else
          b.change_width (b.w - (src.get_edge Edge.Right - b.get_edge Edge.Left))
            Dir.Left).move_by_y
        (src.y -
          (if b.w - (src.get_edge Edge.Right - b.get_edge Edge.Left) < b.w then
            b.change_width (b.w - (src.get_edge Edge.Right - b.get_edge Edge.Left)) Dir.Right
          else
            b.change_width (b.w - (src.get_edge Edge.Right - b.get_edge Edge.Left))
              Dir.Left).y),
        Edge.Right⟩ := rfl
  rw [hu, ifcw_right, move_by_y_eval]
  simp

/-- Full evaluation of `update` for exit = Left: the right edge is
re-anchored on the source's left edge, the left edge stays, and the link
re-centers on `src.y`. -/
lemma update_eval_left (b src : Blk) :
    (LinkSt.mk b Edge.Left).update src =
      ⟨⟨b.x + ((b.w - (b.get_edge Edge.Right - src.get_edge Edge.Left)) - b.w) / 2,
        src.y,
        b.w - (b.get_edge Edge.Right - src.get_edge Edge.Left),
        b.h,
        b.xStart + ((b.w - (b.get_edge Edge.Right - src.get_edge Edge.Left)) - b.w) / 2,
        b.yStart, b.wStart, b.hStart, b.isVisible⟩, Edge.Left⟩ := by
  have hu : (LinkSt.mk b Edge.Left).update src =
      ⟨(if b.w - (b.get_edge Edge.Right - src.get_edge Edge.Left) < b.w then
          b.change_width (b.w - (b.get_edge Edge.Right - src.get_edge Edge.Left)) Dir.Left
        else
          b.change_width (b.w - (b.get_edge Edge.Right - src.get_edge Edge.Left))
            Dir.Right).move_by_y
        (src.y -
          (if b.w - (b.get_edge Edge.Right - src.get_edge Edge.Left) < b.w then
            b.change_width (b.w - (b.get_edge Edge.Right - src.get_edge Edge.Left)) Dir.Left
          else
            b.change_width (b.w - (b.get_edge Edge.Right - src.get_edge Edge.Left))
              Dir.Right).y),
        Edge.Left⟩ := rfl
  rw [hu, ifcw_left, move_by_y_eval]
  simp

/-- `update` always re-anchors the near edge on the source's exit edge,
keeps the far edge where it was, and re-centers on the source's cross-axis
coordinate. -/
lemma update_near_far (l : LinkSt) (src : Blk) :
    (l.update src).exit = l.exit ∧
      (l.update src).nearEdge = src.get_edge l.exit ∧
      (l.update src).farEdge = l.farEdge ∧
      exitCross l.exit (l.update src).blk = exitCross l.exit src := by
  obtain ⟨b, e⟩ := l
  cases e <;>
    simp only [update_eval_top, update_eval_bottom, update_eval_right, update_eval_left,
      LinkSt.nearEdge, LinkSt.farEdge, oppEdge, exitCross, Blk.get_edge] <;>
    refine ⟨by trivial, by ring, by ring, by ring⟩

/-- After an `update` against `src` the link is aligned with `src`. -/
lemma update_gives_aligned (l : LinkSt) (src : Blk) : LinkAligned (l.update src) src := by
  obtain ⟨b, e⟩ := l
  cases e <;>
    (constructor <;>
      simp only [update_eval_top, update_eval_bottom, update_eval_right, update_eval_left,
        LinkSt.nearEdge, oppEdge, exitCross, Blk.get_edge] <;> ring)

/-- On an aligned link, `update` is a complete no-op: the measured delta is
zero, so the resize and the cross-axis re-centering change nothing. -/
lemma update_aligned_id (l : LinkSt) (src : Blk) (hal : LinkAligned l src) :
    l.update src = l := by
  obtain ⟨b, e⟩ := l
  obtain ⟨h1, h2⟩ := hal
  cases e
  case Top =>
    simp only [LinkSt.nearEdge, oppEdge, exitCross, Blk.get_edge] at h1 h2
    rw [update_eval_top]
    refine LinkSt.ext (Blk.ext ?_ ?_ ?_ ?_ ?_ ?_ ?_ ?_ ?_) rfl <;>
      simp only [Blk.get_edge] <;> first | rfl | linarith
  case Bottom =>
    simp only [LinkSt.nearEdge, oppEdge, exitCross, Blk.get_edge] at h1 h2
    rw [update_eval_bottom]
    refine LinkSt.ext (Blk.ext ?_ ?_ ?_ ?_ ?_ ?_ ?_ ?_ ?_) rfl <;>
      simp only [Blk.get_edge] <;> first | rfl | linarith
  case Right =>
    simp only [LinkSt.nearEdge, oppEdge, exitCross, Blk.get_edge] at h1 h2
    rw [update_eval_right]
    refine LinkSt.ext (Blk.ext ?_ ?_ ?_ ?_ ?_ ?_ ?_ ?_ ?_) rfl <;>
      simp only [Blk.get_edge] <;> first | rfl | linarith
  case Left =>
    simp only [LinkSt.nearEdge, oppEdge, exitCross, Blk.get_edge] at h1 h2
    rw [update_eval_left]
    refine LinkSt.ext (Blk.ext ?_ ?_ ?_ ?_ ?_ ?_ ?_ ?_ ?_) rfl <;>
      simp only [Blk.get_edge] <;> first | rfl | linarith

/-- The `Link` constructor produces a link aligned with its source, whether
constructed plugged or unplugged. -/
lemma mkLink_aligned (src dst : Blk) (exit : Edge) (dim : ℚ) (plugged : Bool) :
    LinkAligned (mkLink src dst exit dim plugged) src := by
  cases exit <;> cases plugged <;>
    (constructor <;>
      simp [mkLink, mkBlk, LinkSt.nearEdge, oppEdge, exitCross, Blk.get_edge] <;> ring)

/-- C3.  Link tracking is asymmetric between source and destination: moving
the destination block never touches the links that were registered on the
source (the constructor registers a link only in `src`'s list), so a plugged
link's geometry — in particular its far edge — is unchanged by any
destination move; whereas moving the source block maps `update` (against the
moved source) over the source's link list, and `update` re-anchors each
link's near edge on the source's new exit edge while leaving the far edge
where it was. -/
theorem link_tracking_asymmetry :
    (∀ (src dst : Blk) (exit : Edge) (dim off : ℚ) (plugged : Bool),
      ((mkLinkWorld src dst exit dim plugged).moveDstByY off).srcLinks =
        (mkLinkWorld src dst exit dim plugged).srcLinks) ∧
    (∀ (src dst : Blk) (exit : Edge) (dim off : ℚ) (plugged : Bool),
      ((mkLinkWorld src dst exit dim plugged).moveSrcByY off).srcLinks =
        [(mkLink src dst exit dim plugged).update (src.move_by_y off)]) ∧
    (∀ (l : LinkSt) (src : Blk),
      (l.update src).nearEdge = src.get_edge l.exit ∧ (l.update src).farEdge = l.farEdge) :=
  ⟨fun _ _ _ _ _ _ => rfl, fun _ _ _ _ _ _ => rfl,
    fun l src => ⟨(update_near_far l src).2.1, (update_near_far l src).2.2.1⟩⟩

/-- Counterexample to C10 as stated: for the link of `plug_span_cex` —
re-plugged after its destination moved, while its source stayed put — a
single `update()` immediately after the `plug()` changes the geometry
(height 80 becomes 160), even though the source's center and size are
unchanged since the last `plug()`. -/
theorem update_idempotent_cex :
    ((linkC2.plug srcC2 dstC2).update srcC2).blk.h = 160 ∧
      (linkC2.plug srcC2 dstC2).blk.h = 80 ∧
      ((linkC2.plug srcC2 dstC2).update srcC2).blk.h ≠
        (linkC2.plug srcC2 dstC2).blk.h := by
  have h1 : (linkC2.plug srcC2 dstC2).blk.h = 80 := by
    simp [linkC2, srcC2, dstC2, dstC2far, mkLink, mkBlk, LinkSt.plug, Blk.change_height,
      Blk.move_by_y, Blk.get_edge] <;> norm_num
  have h2 : ((linkC2.plug srcC2 dstC2).update srcC2).blk.h = 160 := by
    simp [linkC2, srcC2, dstC2, dstC2far, mkLink, mkBlk, LinkSt.plug, LinkSt.update,
      Blk.change_height, Blk.move_by_x, Blk.move_by_y, Blk.get_edge] <;> norm_num
  exact ⟨h2, h1, by rw [h1, h2]; norm_num⟩

/-- C10 (amended).  `update` is geometrically idempotent: two consecutive
`update()` calls leave exactly the state one leaves.  Moreover a single
`update()` is a complete no-op whenever the link is aligned with its source
(near edge on the source's exit edge, centered on the source's cross-axis
coordinate) — a relationship that holds after construction and after any
`update`, though not necessarily after a `plug()` issued while the link
geometry was stale (see `update_idempotent_cex`). -/
theorem update_idempotent :
    (∀ (l : LinkSt) (src : Blk), (l.update src).update src = l.update src) ∧
    (∀ (l : LinkSt) (src : Blk), LinkAligned l src → l.update src = l) ∧
    (∀ (src dst : Blk) (exit : Edge) (dim : ℚ) (plugged : Bool),
      LinkAligned (mkLink src dst exit dim plugged) src) :=
  ⟨fun l src => update_aligned_id _ _ (update_gives_aligned l src),
    update_aligned_id, mkLink_aligned⟩

/-- Witness for `update_idempotent`: the freshly constructed unplugged link
of the 140/220 scenario is aligned with its source, so `update` leaves it
unchanged. -/
theorem update_idempotent_witness :
    LinkAligned linkC2u srcC2 ∧ linkC2u.update srcC2 = linkC2u :=
  ⟨by
    constructor <;>
      norm_num [linkC2u, srcC2, dstC2, dstC2far, mkLink, mkBlk, LinkAligned,
        LinkSt.nearEdge, oppEdge, exitCross, Blk.move_by_y, Blk.get_edge],
    update_idempotent.2.1 linkC2u srcC2
      (by
        constructor <;>
          norm_num [linkC2u, srcC2, dstC2, dstC2far, mkLink, mkBlk, LinkAligned,
            LinkSt.nearEdge, oppEdge, exitCross, Blk.move_by_y, Blk.get_edge])⟩

/-! ## C7: sign of width and height under the public operations -/

/-- The geometry-mutating public operations of a block or link: `show`,
`hide`, relative moves, directional resizes, and (for links) `unplug`. -/
inductive LOp
  | show_op
  | hide_op
  | moveByX (off : ℚ)
  | moveByY (off : ℚ)
  | changeWidth (w : ℚ) (d : Dir)
  | changeHeight (h : ℚ) (d : Dir)
  | unplug_op
deriving DecidableEq, Repr

/-- Apply one operation to a link state (a plain block is a state on which
`unplug_op` is simply never used). -/
def LinkSt.applyOp (l : LinkSt) : LOp → LinkSt
  | LOp.show_op => ⟨l.blk.show_blk, l.exit⟩
  | LOp.hide_op => ⟨l.blk.hide_blk, l.exit⟩
  | LOp.moveByX o => ⟨l.blk.move_by_x o, l.exit⟩
  | LOp.moveByY o => ⟨l.blk.move_by_y o, l.exit⟩
  | LOp.changeWidth w d => ⟨l.blk.change_width w d, l.exit⟩
  | LOp.changeHeight h d => ⟨l.blk.change_height h d, l.exit⟩
  | LOp.unplug_op => l.unplug

/-- Apply a sequence of operations in order. -/
def LinkSt.applyOps (l : LinkSt) (ops : List LOp) : LinkSt :=
  ops.foldl LinkSt.applyOp l

/-- A resize operation is size-admissible when its target size is
nonnegative; every other operation is unconditionally admissible. -/
def opSizeOk : LOp → Prop
  | LOp.changeWidth w _ => 0 ≤ w
  | LOp.changeHeight h _ => 0 ≤ h
  | _ => True

lemma applyOp_nonneg (l : LinkSt) (op : LOp) (hop : opSizeOk op)
    (hw : 0 ≤ l.blk.w) (hh : 0 ≤ l.blk.h) :
    0 ≤ (l.applyOp op).blk.w ∧ 0 ≤ (l.applyOp op).blk.h := by
  cases op with
  | show_op => exact ⟨hw, hh⟩
  | hide_op => exact ⟨hw, hh⟩
  | moveByX o => exact ⟨hw, hh⟩
  | moveByY o => exact ⟨hw, hh⟩
  | changeWidth w d =>
    obtain ⟨e1, e2, -⟩ := change_width_fields l.blk w d
    exact ⟨by rw [LinkSt.applyOp]; rw [e1] at *; exact hop,
      by rw [LinkSt.applyOp]; rw [e2] at *; exact hh⟩
  | changeHeight h d =>
    obtain ⟨e1, e2, -⟩ := change_height_fields l.blk h d
    exact ⟨by rw [LinkSt.applyOp]; rw [e2] at *; exact hw,
      by rw [LinkSt.applyOp]; rw [e1] at *; exact hop⟩
  | unplug_op =>
    obtain ⟨b, e⟩ := l
    cases e
    case Top =>
      obtain ⟨e1, e2, -⟩ := change_height_fields b 0 Dir.Down
      exact ⟨by show 0 ≤ (b.change_height 0 Dir.Down).w; rw [e2]; exact hw,
        by show 0 ≤ (b.change_height 0 Dir.Down).h; rw [e1]⟩
    case Bottom =>
      obtain ⟨e1, e2, -⟩ := change_height_fields b 0 Dir.Up
      exact ⟨by show 0 ≤ (b.change_height 0 Dir.Up).w; rw [e2]; exact hw,
        by show 0 ≤ (b.change_height 0 Dir.Up).h; rw [e1]⟩
    case Right =>
      obtain ⟨e1, e2, -⟩ := change_width_fields b 0 Dir.Left
      exact ⟨by show 0 ≤ (b.change_width 0 Dir.Left).w; rw [e1],
        by show 0 ≤ (b.change_width 0 Dir.Left).h; rw [e2]; exact hh⟩
    case Left =>
      obtain ⟨e1, e2, -⟩ := change_width_fields b 0 Dir.Right
      exact ⟨by show 0 ≤ (b.change_width 0 Dir.Right).w; rw [e1],
        by show 0 ≤ (b.change_width 0 Dir.Right).h; rw [e2]; exact hh⟩

/-- Counterexample to C7 as stated: nothing in `change_width` guards against
a negative target size, so a single `change_width(-5, Center)` call drives
the width of a perfectly ordinary 100x50 block to -5. -/
theorem size_nonneg_cex :
    ((LinkSt.mk (mkBlk 200 100 100 50) Edge.Bottom).applyOps
        [LOp.changeWidth (-5) Dir.Center]).blk.w = -5 ∧
      ¬(0 ≤ ((LinkSt.mk (mkBlk 200 100 100 50) Edge.Bottom).applyOps
        [LOp.changeWidth (-5) Dir.Center]).blk.w) := by
  have h : ((LinkSt.mk (mkBlk 200 100 100 50) Edge.Bottom).applyOps
      [LOp.changeWidth (-5) Dir.Center]).blk.w = -5 := by
    obtain ⟨e1, -⟩ :=
      change_width_fields (mkBlk 200 100 100 50) (-5) Dir.Center
    simpa [LinkSt.applyOps, LinkSt.applyOp] using e1
  exact ⟨h, by rw [h]; norm_num⟩

/-- C7 (amended).  Width and height stay nonnegative in every state
reachable by `show`/`hide`/`move_by_x`/`move_by_y`/`unplug` and by
`change_width`/`change_height` with nonnegative target sizes, starting from
any state with nonnegative sizes.  (Without the nonnegativity restriction on
the resize targets the claim fails, see `size_nonneg_cex`; `plug` and
`update` can likewise drive a link's size negative when the destination lies
on the wrong side of the source.) -/
theorem size_nonneg_invariant (ops : List LOp) (l : LinkSt)
    (hops : ∀ op ∈ ops, opSizeOk op) (hw : 0 ≤ l.blk.w) (hh : 0 ≤ l.blk.h) :
    0 ≤ (l.applyOps ops).blk.w ∧ 0 ≤ (l.applyOps ops).blk.h := by
  induction ops generalizing l with
  | nil => exact ⟨hw, hh⟩
  | cons op rest ih =>
    obtain ⟨w1, h1⟩ :=
      applyOp_nonneg l op (hops op (List.mem_cons_self op rest)) hw hh
    exact ih (l.applyOp op) (fun o ho => hops o (List.mem_cons_of_mem op ho)) w1 h1

/-- Witness for `size_nonneg_invariant`: a short admissible sequence mixing
a move, a nonnegative resize, an `unplug` and a `show` on a 100x50 link. -/
theorem size_nonneg_invariant_witness :
    (∀ op ∈ [LOp.moveByY 30, LOp.changeWidth 10 Dir.Center, LOp.unplug_op,
        LOp.show_op], opSizeOk op) ∧
      0 ≤ ((LinkSt.mk (mkBlk 200 100 100 50) Edge.Bottom).applyOps
        [LOp.moveByY 30, LOp.changeWidth 10 Dir.Center, LOp.unplug_op,
          LOp.show_op]).blk.w :=
  ⟨by intro op hop; fin_cases hop <;> norm_num [opSizeOk],
    (size_nonneg_invariant
      [LOp.moveByY 30, LOp.changeWidth 10 Dir.Center, LOp.unplug_op, LOp.show_op]
      (LinkSt.mk (mkBlk 200 100 100 50) Edge.Bottom)
      (by intro op hop; fin_cases hop <;> norm_num [opSizeOk])
      (by norm_num [mkBlk]) (by norm_num [mkBlk])).1⟩

/-! ## C8: timeline scheduling

The GSAP timeline is modelled as the multiset of scheduled tweens, each a
(start time, duration) pair; `endTime()` is the latest tween end (0 for an
empty timeline).  A numeric position argument to `tl.to` schedules at that
absolute time; a `'-=t'` position schedules `t` before the end of the
timeline as it stands at that insertion. -/

/-- A timeline: the list of (start, duration) pairs scheduled so far. -/
abbrev Timeline := List (ℚ × ℚ)

/-- `tl.endTime()`: the latest scheduled end, 0 when nothing is scheduled. -/
def endTime (tl : Timeline) : ℚ :=
  tl.foldr (fun t m => max (t.1 + t.2) m) 0

/-- The start time every scheduling call resolves:
`startTime == null ? tl.endTime() : startTime`. -/
def schedStart (tl : Timeline) (st : Option ℚ) : ℚ :=
  st.getD (endTime tl)

/-- The animation durations configured on a scene. -/
structure SceneT where
  showTime : ℚ
  hideTime : ℚ
  moveTime : ℚ
  morphTime : ℚ
  linkTime : ℚ

/-- `Block.show`: records the pre-call end time, schedules the stroke reveal
of duration `showTime` at the resolved start, overlays the fill fade
(`0.66 * showTime` long, `'-=' + showTime * 0.75` from the new end), and
returns the *pre-call* end time. -/
def show_t (sc : SceneT) (tl : Timeline) (st : Option ℚ) : Timeline × ℚ :=
  let tlEndTime := endTime tl
  let s := schedStart tl st
  let time := sc.showTime
  let tl1 : Timeline := (s, time) :: tl
  let tl2 : Timeline := (endTime tl1 - time * 0.75, time * 0.66) :: tl1
  (tl2, tlEndTime)

/-- `Block.hide`: fill fade of `0.66 * hideTime` at the resolved start, then
the stroke retraction `'-=' + hideTime` from the new end; returns the
pre-call end time. -/
def hide_t (sc : SceneT) (tl : Timeline) (st : Option ℚ) : Timeline × ℚ :=
  let tlEndTime := endTime tl
  let s := schedStart tl st
  let time := sc.hideTime
  let tl1 : Timeline := (s, time * 0.66) :: tl
  let tl2 : Timeline := (endTime tl1 - time, time) :: tl1
  (tl2, tlEndTime)

/-- `Block.move_by_x` / `move_by_y` tween insertion (for a block with no
registered links, so `update_links` schedules nothing): one tween of
`linkTime`, `morphTime` or `moveTime` at the resolved start; returns the
pre-call end time. -/
def move_t (sc : SceneT) (isLink isMorph : Bool) (tl : Timeline) (st : Option ℚ) :
    Timeline × ℚ :=
  let tlEndTime := endTime tl
  let s := schedStart tl st
  let time := if isLink then sc.linkTime else if isMorph then sc.morphTime else sc.moveTime
  ((s, time) :: tl, tlEndTime)

/-- `Block.change_width` tween insertion for a block with `lines` label lines
and no registered links: the optional compensating morph move at the same
start, the rectangle tween, and one text tween per label line, all of
duration `morphTime` (`linkTime` for links) at the resolved start; returns
the pre-call end time.  (`change_height` schedules identically.) -/
def change_width_t (sc : SceneT) (isLink : Bool) (lines : ℕ) (b : Blk) (w : ℚ)
    (direction : Dir) (tl : Timeline) (st : Option ℚ) : Timeline × ℚ :=
  let tlEndTime := endTime tl
  let s := schedStart tl st
  let deltaW := w - b.w
  let time := if isLink then sc.linkTime else sc.morphTime
  let tl1 :=
    if (0 < deltaW ∧ direction = Dir.Left) ∨ (deltaW < 0 ∧ direction = Dir.Right) then
      (move_t sc isLink true tl (some s)).1
    else if direction = Dir.Center then (move_t sc isLink true tl (some s)).1
    else tl
  let tl2 : Timeline := (s, time) :: tl1
  let tl3 : Timeline := List.replicate lines (s, time) ++ tl2
  (tl3, tlEndTime)

lemma endTime_cons (t : ℚ × ℚ) (tl : Timeline) :
    endTime (t :: tl) = max (t.1 + t.2) (endTime tl) := rfl

/-- C8.  Every scheduling call returns the timeline's end time as it was
before the call (the insertion point, not the finish time), and a call with
no explicit start time is appended at the current timeline end.
Consequently `show()` followed by `hide()` with no explicit start times
starts the hide exactly `showTime` after the show started, and any two calls
anchored at the value returned by an earlier `show()` start at that same
offset. -/
theorem timeline_scheduling :
    (∀ (sc : SceneT) (tl : Timeline) (st : Option ℚ),
      (show_t sc tl st).2 = endTime tl ∧ (hide_t sc tl st).2 = endTime tl) ∧
    (∀ (sc : SceneT) (isLink isMorph : Bool) (tl : Timeline) (st : Option ℚ),
      (move_t sc isLink isMorph tl st).2 = endTime tl) ∧
    (∀ (sc : SceneT) (isLink : Bool) (lines : ℕ) (b : Blk) (w : ℚ) (d : Dir)
      (tl : Timeline) (st : Option ℚ),
      (change_width_t sc isLink lines b w d tl st).2 = endTime tl) ∧
    (∀ tl : Timeline, schedStart tl none = endTime tl) ∧
    (∀ (tl : Timeline) (s : ℚ), schedStart tl (some s) = s) ∧
    (∀ (sc : SceneT) (tl : Timeline), 0 ≤ sc.showTime →
      schedStart (show_t sc tl none).1 none =
        schedStart tl none + sc.showTime) := by
  refine ⟨fun _ _ _ => ⟨rfl, rfl⟩, fun _ _ _ _ _ => rfl, fun _ _ _ _ _ _ _ _ => rfl,
    fun _ => rfl, fun _ _ => rfl, ?_⟩
  intro sc tl hpos
  have e1 : endTime ((endTime tl, sc.showTime) :: tl) = endTime tl + sc.showTime := by
    show max (endTime tl + sc.showTime) (endTime tl) = endTime tl + sc.showTime
    exact max_eq_left (by linarith)
  have e2 : endTime ((endTime ((endTime tl, sc.showTime) :: tl) - sc.showTime * 0.75,
      sc.showTime * 0.66) :: (endTime tl, sc.showTime) :: tl) =
      endTime tl + sc.showTime := by
    show max ((endTime ((endTime tl, sc.showTime) :: tl) - sc.showTime * 0.75) +
        sc.showTime * 0.66) (endTime ((endTime tl, sc.showTime) :: tl)) =
      endTime tl + sc.showTime
    rw [e1]
    exact max_eq_right (by linarith)
  exact e2

/-- Witness for `timeline_scheduling`: with the default one-second show time
and an empty timeline, the follow-up call is scheduled at second 1. -/
theorem timeline_scheduling_witness :
    0 ≤ (SceneT.mk 1 1 1 1 1).showTime ∧
      schedStart (show_t (SceneT.mk 1 1 1 1 1) [] none).1 none =
        schedStart ([] : Timeline) none + (SceneT.mk 1 1 1 1 1).showTime :=
  ⟨by norm_num,
    timeline_scheduling.2.2.2.2.2 (SceneT.mk 1 1 1 1 1) [] (by norm_num)⟩

/-! ## The position expression evaluator (`Position.ts`) and the scene
registries (`Scene.ts`)

Tokens are lists of characters (a JavaScript string).  `undefined` and `NaN`
are first-class values of the evaluator's value domain `JSVal`; thrown
exceptions are `Except.error`. -/

/-- A JavaScript string, as the evaluator sees it. -/
abbrev Tok := List Char

/-- The values that can flow through the evaluator: finite numbers,
`undefined` (a missing map entry), and `NaN` (arithmetic on the former). -/
inductive JSVal
  | num (q : ℚ)
  | undef
  | nan
deriving DecidableEq, Repr

/-- The two operators of the expression grammar. -/
inductive JSOp
  | add
  | sub
deriving DecidableEq, Repr

/-- JavaScript `\s` for the characters this code can meet. -/
def isWS (c : Char) : Bool :=
  c == ' ' || c == '\t' || c == '\n' || c == '\r'

/-- Worker for `jsSplit`: `acc` is the token being accumulated (reversed);
`skipping` is true while consuming the tail of a whitespace run. -/
def jsSplitAux : List Char → List Char → Bool → List Tok
  | [], acc, _ => [acc.reverse]
  | c :: rest, acc, skipping =>
    if isWS c then
      if skipping then jsSplitAux rest acc true
      else acc.reverse :: jsSplitAux rest [] true
    else jsSplitAux rest (c :: acc) false

/-- JavaScript `format.split(/\s+/)`: split on maximal whitespace runs.
Note the JavaScript semantics: splitting the empty string yields one empty
token, and leading/trailing separators yield empty tokens, so the result is
never the empty list. -/
def jsSplit (s : Tok) : List Tok :=
  jsSplitAux s [] false

/-- JavaScript `Number(t)` on a digit string. -/
def natFromDigits (t : Tok) : ℕ :=
  t.foldl (fun a c => 10 * a + (c.toNat - 48)) 0

/-- The regex `^\d+$`. -/
def isIntLit (t : Tok) : Bool :=
  !t.isEmpty && t.all Char.isDigit

/-- The regex `^\d+%$`. -/
def isPctLit (t : Tok) : Bool :=
  !t.dropLast.isEmpty && t.dropLast.all Char.isDigit && t.getLast? == some '%'

/-- JavaScript `t.match(/\d+/)[0]`: the first run of digits. -/
def firstDigitRun (t : Tok) : Tok :=
  (t.dropWhile (fun c => !c.isDigit)).takeWhile Char.isDigit

/-- The scene state the evaluator reads: canvas size plus the three
registries.  Registry values are stored `Position` results (`JSVal`), and a
present key with value `undefined` still counts as present, as in a
JavaScript object. -/
structure SceneP where
  width : ℚ
  height : ℚ
  constants : List (Tok × JSVal)
  hguides : List (Tok × JSVal)
  vguides : List (Tok × JSVal)

/-- Property read on a JavaScript object: `undefined` when missing. -/
def lookupJS (m : List (Tok × JSVal)) (name : Tok) : JSVal :=
  (m.lookup name).getD JSVal.undef

/-- `Scene.get_constant`. -/
def SceneP.get_constant (sc : SceneP) (name : Tok) : JSVal :=
  lookupJS sc.constants name

/-- `Scene.get_hguide`. -/
def SceneP.get_hguide (sc : SceneP) (name : Tok) : JSVal :=
  lookupJS sc.hguides name

/-- `Scene.get_vguide`. -/
def SceneP.get_vguide (sc : SceneP) (name : Tok) : JSVal :=
  lookupJS sc.vguides name

/-- `parse_value` from `Position.ts`: integer literal, percentage literal
(axis-scaled, illegal on the constant pseudo-axis), or symbolic lookup —
vertical guides then constants on `x`, horizontal guides then constants on
`y`, constants only otherwise.  A failed lookup *returns* `undefined`; it
does not throw. -/
def parse_value (sc : SceneP) (axis : Tok) (token : Tok) : Except String JSVal :=
  if isIntLit token then Except.ok (JSVal.num (natFromDigits token))
  else if isPctLit token then
    let percent : ℚ := (natFromDigits (firstDigitRun token) : ℚ) / 100
    if axis = ['x'] then Except.ok (JSVal.num (sc.width * percent))
    else if axis = ['y'] then Except.ok (JSVal.num (sc.height * percent))
    else Except.error "APosition: Bad constant percentage"
  else if axis = ['x'] then
    match sc.get_vguide token with
    | JSVal.undef => Except.ok (sc.get_constant token)
    | g => Except.ok g
  else if axis = ['y'] then
    match sc.get_hguide token with
    | JSVal.undef => Except.ok (sc.get_constant token)
    | g => Except.ok g
  else Except.ok (sc.get_constant token)

/-- `parse_operator` from `Position.ts`: `+` and `-` only, anything else
throws. -/
def parse_operator (t : Tok) : Except String JSOp :=
  if t = ['+'] then Except.ok JSOp.add
  else if t = ['-'] then Except.ok JSOp.sub
  else Except.error ("APosition: Bad operator " ++ String.mk t)

/-- Application of a parsed operator closure: JavaScript `+`/`-` yields `NaN`
when an operand is `undefined` or `NaN`. -/
def jsApply (o : JSOp) (a b : JSVal) : JSVal :=
  match a, b with
  | JSVal.num x, JSVal.num y =>
    match o with
    | JSOp.add => JSVal.num (x + y)
    | JSOp.sub => JSVal.num (x - y)
  | _, _ => JSVal.nan

/-- The `for (let i = 1; i < tokens.length; i += 2)` loop of `Position`: an
operator token followed by a value token per step; a value that parsed to
`undefined` throws `Bad value`; a trailing operator makes `parse_value`
dereference `undefined`, a TypeError. -/
def posLoop (sc : SceneP) (axis : Tok) : JSVal → List Tok → Except String JSVal
  | pos, [] => Except.ok pos
  | _, [op] =>
    match parse_operator op with
    | Except.error e => Except.error e
    | Except.ok _ => Except.error "APosition: TypeError"
  | pos, op :: v :: rest =>
    match parse_operator op with
    | Except.error e => Except.error e
    | Except.ok o =>
      match parse_value sc axis v with
      | Except.error e => Except.error e
      | Except.ok val =>
        if val = JSVal.undef then
          Except.error ("APosition: Bad value " ++ String.mk v)
        else posLoop sc axis (jsApply o pos val) rest

/-- The `format` argument of `Position`: a number passes through untouched,
a string is tokenized and evaluated. -/
inductive PosInput
  | num (q : ℚ)
  | str (s : Tok)

/-- The `Position` function: axis check, pass-through for numbers, then
tokenize and fold.  The `tokens.length == 0` check is kept from the source
(it is unreachable: `split` never returns an empty array). -/
def PositionEval (sc : SceneP) (axis : Tok) (format : PosInput) : Except String JSVal :=
  if axis ≠ ['x'] ∧ axis ≠ ['y'] ∧ axis ≠ ['k'] then
    Except.error "APosition: Bad axis"
  else
    match format with
    | PosInput.num q => Except.ok (JSVal.num q)
    | PosInput.str s =>
      match jsSplit s with
      | [] => Except.error "APosition: Bad format"
      | t :: rest =>
        match parse_value sc axis t with
        | Except.error e => Except.error e
        | Except.ok pos => posLoop sc axis pos rest

/-- The name regex `^[A-Za-z][A-Za-z0-9_]*$` of the `add_*` methods. -/
def isValidName (t : Tok) : Bool :=
  match t with
  | [] => false
  | c :: rest =>
    (c.isUpper || c.isLower) &&
      rest.all (fun d => d.isUpper || d.isLower || d.isDigit || d == '_')

/-- JavaScript `name in obj` on a registry. -/
def keyMem (m : List (Tok × JSVal)) (name : Tok) : Bool :=
  (m.lookup name).isSome

/-- `Scene.add_constant`: name pattern check, collision check against all
three namespaces, then resolve and store.  The returned scene is the input
scene whenever an error is thrown (each throw happens before the single
mutation). -/
def SceneP.add_constant (sc : SceneP) (name : Tok) (value : PosInput) :
    SceneP × Except String Unit :=
  if !isValidName name then (sc, Except.error "AScene: VGuide name is invalid")
  else if keyMem sc.constants name || keyMem sc.hguides name || keyMem sc.vguides name then
    (sc, Except.error "AScene: Constant name collision")
  else
    match PositionEval sc ['k'] value with
    | Except.error e => (sc, Except.error e)
    | Except.ok v => ({ sc with constants := (name, v) :: sc.constants }, Except.ok ())

/-- `Scene.add_hguide`: collision check against constants and horizontal
guides, then resolve on axis `y` and store. -/
def SceneP.add_hguide (sc : SceneP) (name : Tok) (loc : PosInput) :
    SceneP × Except String Unit :=
  if !isValidName name then (sc, Except.error "AScene: VGuide name is invalid")
  else if keyMem sc.constants name || keyMem sc.hguides name then
    (sc, Except.error "AScene: HGuide name collision")
  else
    match PositionEval sc ['y'] loc with
    | Except.error e => (sc, Except.error e)
    | Except.ok v => ({ sc with hguides := (name, v) :: sc.hguides }, Except.ok ())

/-- `Scene.add_vguide`: collision check against constants and vertical
guides, then resolve on axis `x` and store. -/
def SceneP.add_vguide (sc : SceneP) (name : Tok) (loc : PosInput) :
    SceneP × Except String Unit :=
  if !isValidName name then (sc, Except.error "AScene: VGuide name is invalid")
  else if keyMem sc.constants name || keyMem sc.vguides name then
    (sc, Except.error "AScene: VGuide name collision")
  else
    match PositionEval sc ['x'] loc with
    | Except.error e => (sc, Except.error e)
    | Except.ok v => ({ sc with vguides := (name, v) :: sc.vguides }, Except.ok ())

/-- An 800x600 scene with no guides and no constants. -/
def sceneEmpty : SceneP := ⟨800, 600, [], [], []⟩

/-- A scene whose constants map `a`, `b`, `c` to three arbitrary values. -/
def sceneABC (p q r : ℚ) : SceneP :=
  ⟨0, 0, [(['a'], JSVal.num p), (['b'], JSVal.num q), (['c'], JSVal.num r)], [], []⟩

/-- C4.  The evaluator applies `+` and `-` strictly left-to-right with no
precedence: for any values of `a`, `b`, `c`, the expression `a - b + c`
evaluates to `(a - b) + c`; in particular `100 - 20 + 5` evaluates to 85,
not 75. -/
theorem position_left_assoc :
    (∀ p q r : ℚ,
      PositionEval (sceneABC p q r) ['k'] (PosInput.str "a - b + c".data) =
        Except.ok (JSVal.num ((p - q) + r))) ∧
    PositionEval sceneEmpty ['x'] (PosInput.str "100 - 20 + 5".data) =
      Except.ok (JSVal.num 85) ∧
    PositionEval sceneEmpty ['x'] (PosInput.str "100 - 20 + 5".data) ≠
      Except.ok (JSVal.num 75) := by
  have h0 : PositionEval sceneEmpty ['x'] (PosInput.str "100 - 20 + 5".data) =
      Except.ok (JSVal.num (((100 : ℕ) : ℚ) - ((20 : ℕ) : ℚ) + ((5 : ℕ) : ℚ))) := rfl
  refine ⟨fun p q r => rfl, ?_, ?_⟩
  · rw [h0]; norm_num
  · rw [h0]; simp; norm_num

lemma isIntLit_append_pct (t : Tok) : isIntLit (t ++ ['%']) = false := by
  unfold isIntLit
  rw [List.all_append]
  have h : Char.isDigit '%' = false := rfl
  simp [h]

lemma isPctLit_append (t : Tok) (h1 : t ≠ []) (h2 : t.all Char.isDigit = true) :
    isPctLit (t ++ ['%']) = true := by
  unfold isPctLit
  rw [List.dropLast_concat, List.getLast?_concat]
  have h3 : t.isEmpty = false := by
    cases t
    · exact absurd rfl h1
    · rfl
  simp [h2, h3]

lemma takeWhile_digits_append (t : Tok) (h : t.all Char.isDigit = true) :
    (t ++ ['%']).takeWhile Char.isDigit = t := by
  induction t with
  | nil => rfl
  | cons c cs ih =>
    rw [List.all_cons, Bool.and_eq_true] at h
    rw [List.cons_append, List.takeWhile_cons]
    simp [h.1, ih h.2]

lemma firstDigitRun_append (t : Tok) (h1 : t ≠ []) (h2 : t.all Char.isDigit = true) :
    firstDigitRun (t ++ ['%']) = t := by
  unfold firstDigitRun
  cases t with
  | nil => exact absurd rfl h1
  | cons c cs =>
    rw [List.all_cons, Bool.and_eq_true] at h2
    rw [List.cons_append, List.dropWhile_cons]
    simp only [h2.1, Bool.not_true, Bool.false_eq_true, if_false]
    rw [← List.cons_append, takeWhile_digits_append]
    rw [List.all_cons, Bool.and_eq_true]
    exact ⟨h2.1, h2.2⟩

/-- C9.  For every percentage token `n%` (`n` a nonempty digit string) the
evaluator returns `n / 100` of the scene's width on axis `x` and `n / 100`
of the scene's height on axis `y`, and on the constant pseudo-axis `k` it
throws; concretely, `50%` on axis `x` of the 800-wide scene yields 400. -/
theorem percent_token_eval :
    (∀ (sc : SceneP) (t : Tok), t ≠ [] → t.all Char.isDigit = true →
      parse_value sc ['x'] (t ++ ['%']) =
          Except.ok (JSVal.num (sc.width * ((natFromDigits t : ℚ) / 100))) ∧
        parse_value sc ['y'] (t ++ ['%']) =
          Except.ok (JSVal.num (sc.height * ((natFromDigits t : ℚ) / 100))) ∧
        parse_value sc ['k'] (t ++ ['%']) =
          Except.error "APosition: Bad constant percentage") ∧
    PositionEval sceneEmpty ['x'] (PosInput.str "50%".data) =
      Except.ok (JSVal.num 400) := by
  constructor
  · intro sc t h1 h2
    unfold parse_value
    rw [isIntLit_append_pct, isPctLit_append t h1 h2, firstDigitRun_append t h1 h2]
    refine ⟨?_, ?_, ?_⟩ <;> simp
  · have h0 : PositionEval sceneEmpty ['x'] (PosInput.str "50%".data) =
        Except.ok (JSVal.num ((800 : ℚ) * (((50 : ℕ) : ℚ) / 100))) := rfl
    rw [h0]; norm_num

/-- Witness for `percent_token_eval`: the token `50` is a nonempty digit
string, and `50%` resolves against the 800-wide scene to 400. -/
theorem percent_token_eval_witness :
    (['5', '0'] : Tok) ≠ [] ∧ (['5', '0'] : Tok).all Char.isDigit = true ∧
      parse_value sceneEmpty ['x'] (['5', '0'] ++ ['%']) =
        Except.ok (JSVal.num (sceneEmpty.width * ((natFromDigits ['5', '0'] : ℚ) / 100))) :=
  ⟨by simp, by rfl,
    (percent_token_eval.1 sceneEmpty ['5', '0'] (by simp) (by rfl)).1⟩

/-- A symbolic name that resolves to neither a guide (on axis `x`) nor a
constant parses to `undefined` — without throwing. -/
lemma parse_value_unresolvable (sc : SceneP) (v : Tok)
    (hInt : isIntLit v = false) (hPct : isPctLit v = false)
    (hvg : sc.get_vguide v = JSVal.undef) (hcst : sc.get_constant v = JSVal.undef) :
    parse_value sc ['x'] v = Except.ok JSVal.undef := by
  unfold parse_value
  rw [hInt, hPct, hvg, hcst]
  simp

/-- Counterexample to C5 as stated: the check `val == undefined` only guards
value tokens *after* an operator, so an expression consisting of a single
unresolvable name evaluates to `undefined` without any error; likewise the
empty expression (which tokenizes to one empty token, so the
`tokens.length == 0` guard never fires) evaluates to `undefined`. -/
theorem unresolvable_name_cex :
    PositionEval sceneEmpty ['x'] (PosInput.str "foo".data) = Except.ok JSVal.undef ∧
      PositionEval sceneEmpty ['x'] (PosInput.str "".data) = Except.ok JSVal.undef :=
  ⟨rfl, rfl⟩

/-- C5 (amended).  An unresolvable symbolic name is an immediate error at
every *operator-following* value position: the evaluator throws `Bad value`
before applying the operator, whatever comes later in the token list.  At
the first position, however, the unresolved `undefined` flows through:
a single unresolvable name (and likewise the empty token list produced by
the empty expression) yields `undefined` with no error raised. -/
theorem unresolvable_name_error :
    (∀ (sc : SceneP) (pos : JSVal) (op v : Tok) (rest : List Tok) (o : JSOp),
      parse_operator op = Except.ok o →
      isIntLit v = false → isPctLit v = false →
      sc.get_vguide v = JSVal.undef → sc.get_constant v = JSVal.undef →
      posLoop sc ['x'] pos (op :: v :: rest) =
        Except.error ("APosition: Bad value " ++ String.mk v)) ∧
    (∀ (sc : SceneP) (v : Tok),
      isIntLit v = false → isPctLit v = false →
      sc.get_vguide v = JSVal.undef → sc.get_constant v = JSVal.undef →
      parse_value sc ['x'] v = Except.ok JSVal.undef) ∧
    (∀ sc : SceneP,
      sc.get_vguide [] = JSVal.undef → sc.get_constant [] = JSVal.undef →
      isIntLit [] = false → isPctLit [] = false →
      PositionEval sc ['x'] (PosInput.str []) = Except.ok JSVal.undef) := by
  refine ⟨?_, parse_value_unresolvable, ?_⟩
  · intro sc pos op v rest o hop hInt hPct hvg hcst
    have hv := parse_value_unresolvable sc v hInt hPct hvg hcst
    unfold posLoop
    rw [hop, hv]
    simp
  · intro sc hvg hcst hInt hPct
    have hv := parse_value_unresolvable sc [] hInt hPct hvg hcst
    unfold PositionEval
    simp only [jsSplit, jsSplitAux, List.reverse_nil]
    rw [hv]
    simp [posLoop]

/-- Witness for `unresolvable_name_error`: the expression `1 + foo` against
the empty scene throws `Bad value "foo"` at the second value position. -/
theorem unresolvable_name_error_witness :
    parse_operator ['+'] = Except.ok JSOp.add ∧
      isIntLit "foo".data = false ∧ isPctLit "foo".data = false ∧
      sceneEmpty.get_vguide "foo".data = JSVal.undef ∧
      sceneEmpty.get_constant "foo".data = JSVal.undef ∧
      posLoop sceneEmpty ['x'] (JSVal.num 1) [['+'], "foo".data] =
        Except.error ("APosition: Bad value " ++ String.mk "foo".data) :=
  ⟨rfl, rfl, rfl, rfl, rfl,
    unresolvable_name_error.1 sceneEmpty (JSVal.num 1) ['+'] "foo".data [] JSOp.add
      rfl rfl rfl rfl rfl⟩

/-- C6.  Registering a vertical guide whose name already exists as a
constant or as a vertical guide, a horizontal guide colliding with a
constant or horizontal guide, or a constant colliding with any of the three
namespaces, throws — and the thrown call returns the registries exactly as
they were (the collision check precedes the single mutation). -/
theorem registry_collision_error :
    (∀ (sc : SceneP) (name : Tok) (loc : PosInput),
      (keyMem sc.constants name || keyMem sc.vguides name) = true →
      ∃ e, sc.add_vguide name loc = (sc, Except.error e)) ∧
    (∀ (sc : SceneP) (name : Tok) (loc : PosInput),
      (keyMem sc.constants name || keyMem sc.hguides name) = true →
      ∃ e, sc.add_hguide name loc = (sc, Except.error e)) ∧
    (∀ (sc : SceneP) (name : Tok) (value : PosInput),
      (keyMem sc.constants name || keyMem sc.hguides name ||
        keyMem sc.vguides name) = true →
      ∃ e, sc.add_constant name value = (sc, Except.error e)) := by
  refine ⟨?_, ?_, ?_⟩
  · intro sc name loc hcol
    unfold SceneP.add_vguide
    by_cases hval : isValidName name
    · exact ⟨"AScene: VGuide name collision", by simp [hval, hcol]⟩
    · exact ⟨"AScene: VGuide name is invalid", by simp [hval]⟩
  · intro sc name loc hcol
    unfold SceneP.add_hguide
    by_cases hval : isValidName name
    · exact ⟨"AScene: HGuide name collision", by simp [hval, hcol]⟩
    · exact ⟨"AScene: VGuide name is invalid", by simp [hval]⟩
  · intro sc name value hcol
    unfold SceneP.add_constant
    by_cases hval : isValidName name
    · exact ⟨"AScene: Constant name collision", by simp [hval, hcol]⟩
    · exact ⟨"AScene: VGuide name is invalid", by simp [hval]⟩

/-- Witness for `registry_collision_error`: adding a vertical guide named
`a` to a scene that already has a constant named `a` errors out and returns
the scene unchanged. -/
theorem registry_collision_error_witness :
    (keyMem (sceneABC 1 2 3).constants ['a'] ||
        keyMem (sceneABC 1 2 3).vguides ['a']) = true ∧
      ∃ e, (sceneABC 1 2 3).add_vguide ['a'] (PosInput.num 7) =
        (sceneABC 1 2 3, Except.error e) :=
  ⟨rfl, registry_collision_error.1 (sceneABC 1 2 3) ['a'] (PosInput.num 7) rfl⟩

end Aniblock
